import Mathlib

/-!
Shallow embedding of the load-test orchestration engine from
`cmd/loadTests.go`.  Pure control flow and counter/queue updates are
translated directly; calls to external collaborators (user creation,
namespace readiness, resource creation, pipeline-run observation) are
modelled by oracles that give the outcome of each call event, and
measured wall-clock durations are oracle-supplied natural numbers of
nanoseconds.
-/

/-- Run configuration: the command-line globals of `loadTests.go`
(`usernamePrefix`, `numberOfUsers`, `userBatches`, `threadCount`,
`waitPipelines`). -/
structure Config where
  usernamePrefixStr : List Char
  numberOfUsers : Nat
  userBatches : Nat
  threadCount : Nat
  waitPipelines : Bool

/-- Terminal observation of one user's pipeline run in Stage 3:
either the bounded poll timed out, or the run reached a terminal state
after `runTime` nanoseconds (completion minus creation timestamp) with
the succeeded condition `succeeded`. -/
inductive BuildOutcome where
  | timeout
  | done (runTime : Nat) (succeeded : Bool)

/-- Outcomes of all external collaborator calls made by one worker
thread, indexed by the call event (user ordinal, or namespace plus
batch-loop index for readiness waits). -/
structure ThreadOracle where
  createOk : Nat → Bool
  nsReady : List Char → Nat → Bool
  userDur : Nat → Nat
  secretOk : Nat → Bool
  appOk : Nat → Bool
  gitopsOk : Nat → Bool
  componentOk : Nat → Bool
  componentNameOk : Nat → Bool
  resourceDur : Nat → Nat
  build : Nat → BuildOutcome

/-- The character for a single decimal digit. -/
def digitChar (d : Nat) : Char :=
  match d with
  | 0 => '0'
  | 1 => '1'
  | 2 => '2'
  | 3 => '3'
  | 4 => '4'
  | 5 => '5'
  | 6 => '6'
  | 7 => '7'
  | 8 => '8'
  | _ => '9'

/-- Numeric value of a decimal digit character. -/
def charVal (c : Char) : Nat := c.toNat - 48

/-- Decimal rendering of `n` (most significant digit first), with
explicit fuel for structural recursion; `decChars n n` renders `n`. -/
def decCharsAux : Nat → Nat → List Char
  | 0, _ => []
  | fuel + 1, n =>
      if n < 10 then [digitChar n]
      else decCharsAux fuel (n / 10) ++ [digitChar (n % 10)]

/-- Decimal character rendering of a natural number (empty for 0;
the `%04d` zero padding below restores "0000" in that case, matching
Go's formatted output). -/
def decChars (n : Nat) : List Char := decCharsAux n n

/-- Go's `%04d` format verb: decimal digits left-padded with zeros to
width 4. -/
def pad4Chars (n : Nat) : List Char :=
  List.replicate (4 - (decChars n).length) '0' ++ decChars n

/-- `fmt.Sprintf("%s-%04d", usernamePrefix, n)`: the synthetic
username for global user number `n`. -/
def fmtUserChars (pre : List Char) (n : Nat) : List Char :=
  pre ++ '-' :: pad4Chars n

/-- `fmt.Sprintf("%s-%04d-tenant", usernamePrefix, n)`: the tenant
namespace derived from global user number `n`. -/
def fmtTenantNs (pre : List Char) (n : Nat) : List Char :=
  fmtUserChars pre n ++ ['-', 't', 'e', 'n', 'a', 'n', 't']

/-- The username derived at the start of each stage for thread
`threadIndex` and user ordinal `userIndex`
(`usernamePrefix`-`%04d` of `threadIndex*numberOfUsers+userIndex`). -/
def stage1Username (cfg : Config) (threadIndex userIndex : Nat) : List Char :=
  fmtUserChars cfg.usernamePrefixStr (threadIndex * cfg.numberOfUsers + userIndex)

/-- The namespace string `loadTests.go` passes to `wait.ForNamespace`
in the Stage-1 batch loop at loop index `i` of the cohort ending at
`userIndex`: the source formats it from `userIndex`, so the parameter
`i` does not occur in the result. -/
def stage1WaitNamespace (cfg : Config) (threadIndex userIndex i : Nat) : List Char :=
  fmtTenantNs cfg.usernamePrefixStr (threadIndex * cfg.numberOfUsers + userIndex)

/-- Per-thread Stage-1 state: the failure counter
`FailedUserCreations[threadIndex]`, the duration accumulator
`AverageUserCreationTime[threadIndex]`, the progress-bar count, the
sequence of recorded error codes, and the contents of the `chUsers`
queue in send order. -/
structure Stage1State where
  failedUserCreations : Nat
  averageUserCreationTime : Nat
  usersBarCount : Nat
  errlog : List Nat
  chUsers : List Nat

/-- The Stage-1 batch loop body (`for i := userIndex - userBatches + 1; ...`):
checks readiness at successive loop indices, sending each index into
the queue as soon as its check passes; a failing check ends the loop
with the members pushed so far and a failure flag. -/
def stage1BatchLoopAux (ready : Nat → Bool) : Nat → Nat → List Nat → List Nat × Bool
  | 0, _, acc => (acc, true)
  | fuel + 1, i, acc =>
      if ready i then stage1BatchLoopAux ready fuel (i + 1) (acc ++ [i])
      else (acc, false)

/-- The Stage-1 cohort evaluation for the batch of `cnt` members ending
at ordinal `hi`: loop indices run from `hi + 1 - cnt` to `hi`. -/
def stage1BatchLoop (ready : Nat → Bool) (cnt hi : Nat) : List Nat × Bool :=
  stage1BatchLoopAux ready cnt (hi + 1 - cnt) []

/-- One iteration of the Stage-1 user loop of `userJourneyThread`:
attempt user creation; on failure record error 1 and count it; on
success, when the ordinal completes a batch, run the cohort evaluation
(readiness failure records error 2 once and counts one failure,
abandoning the rest of that cohort); otherwise (and after a fully
successful cohort evaluation) accumulate the measured duration and
advance the progress bar. -/
def stage1User (cfg : Config) (threadIndex : Nat) (orc : ThreadOracle)
    (st : Stage1State) (userIndex : Nat) : Stage1State :=
  if orc.createOk userIndex then
    if userIndex % cfg.userBatches == 0 then
      match stage1BatchLoop
          (fun i => orc.nsReady (stage1WaitNamespace cfg threadIndex userIndex i) i)
          cfg.userBatches userIndex with
      | (pushed, true) =>
          { st with
            chUsers := st.chUsers ++ pushed
            averageUserCreationTime := st.averageUserCreationTime + orc.userDur userIndex
            usersBarCount := st.usersBarCount + 1 }
      | (pushed, false) =>
          { st with
            chUsers := st.chUsers ++ pushed
            errlog := st.errlog ++ [2]
            failedUserCreations := st.failedUserCreations + 1 }
    else
      { st with
        averageUserCreationTime := st.averageUserCreationTime + orc.userDur userIndex
        usersBarCount := st.usersBarCount + 1 }
  else
    { st with
      failedUserCreations := st.failedUserCreations + 1
      errlog := st.errlog ++ [1] }

/-- Initial Stage-1 state. -/
def stage1Init : Stage1State := ⟨0, 0, 0, [], []⟩

/-- The whole Stage-1 goroutine: the user loop over ordinals
`1 .. numberOfUsers` in order. -/
def stage1Run (cfg : Config) (threadIndex : Nat) (orc : ThreadOracle) : Stage1State :=
  (List.range cfg.numberOfUsers).foldl
    (fun st k => stage1User cfg threadIndex orc st (k + 1)) stage1Init

/-- Per-thread Stage-2 state: `FailedResourceCreations[threadIndex]`,
`AverageResourceCreationTimePerUser[threadIndex]`, the progress-bar
count, recorded error codes, and the contents of the `chPipelines`
queue in send order. -/
structure Stage2State where
  failedResourceCreations : Nat
  averageResourceCreationTime : Nat
  resourcesBarCount : Nat
  errlog : List Nat
  chPipelines : List Nat

/-- One iteration of the Stage-2 consumer loop: the five sequential
steps (registry secret, application, gitops repo, component, component
name check); the first failing step records its code (3..7), counts
one failure and skips to the next queued ordinal, while full success
accumulates the measured duration and forwards the ordinal. -/
def stage2User (orc : ThreadOracle) (st : Stage2State) (userIndex : Nat) : Stage2State :=
  if orc.secretOk userIndex then
    if orc.appOk userIndex then
      if orc.gitopsOk userIndex then
        if orc.componentOk userIndex then
          if orc.componentNameOk userIndex then
            { st with
              averageResourceCreationTime :=
                st.averageResourceCreationTime + orc.resourceDur userIndex
              chPipelines := st.chPipelines ++ [userIndex]
              resourcesBarCount := st.resourcesBarCount + 1 }
          else
            { st with
              errlog := st.errlog ++ [7]
              failedResourceCreations := st.failedResourceCreations + 1 }
        else
          { st with
            errlog := st.errlog ++ [6]
            failedResourceCreations := st.failedResourceCreations + 1 }
      else
        { st with
          errlog := st.errlog ++ [5]
          failedResourceCreations := st.failedResourceCreations + 1 }
    else
      { st with
        errlog := st.errlog ++ [4]
        failedResourceCreations := st.failedResourceCreations + 1 }
  else
    { st with
      errlog := st.errlog ++ [3]
      failedResourceCreations := st.failedResourceCreations + 1 }

/-- Initial Stage-2 state. -/
def stage2Init : Stage2State := ⟨0, 0, 0, [], []⟩

/-- The whole Stage-2 goroutine: consume the Stage-1 queue contents in
order until the queue is closed and drained. -/
def stage2Run (orc : ThreadOracle) (queue : List Nat) : Stage2State :=
  queue.foldl (stage2User orc) stage2Init

/-- Per-thread Stage-3 state: `FailedPipelineRuns[threadIndex]`,
`AveragePipelineRunTimePerUser[threadIndex]`, the progress-bar count,
and recorded error codes. -/
structure Stage3State where
  failedPipelineRuns : Nat
  averagePipelineRunTime : Nat
  pipelinesBarCount : Nat
  errlog : List Nat

/-- One iteration of the Stage-3 consumer loop: a poll timeout records
error 9 and counts one failure; a terminal pipeline run accumulates its
completion-minus-creation time and advances the bar, additionally
recording error 8 and counting one failure when the succeeded
condition is false. -/
def stage3User (orc : ThreadOracle) (st : Stage3State) (userIndex : Nat) : Stage3State :=
  match orc.build userIndex with
  | .timeout =>
      { st with
        errlog := st.errlog ++ [9]
        failedPipelineRuns := st.failedPipelineRuns + 1 }
  | .done d ok =>
      if ok then
        { st with
          averagePipelineRunTime := st.averagePipelineRunTime + d
          pipelinesBarCount := st.pipelinesBarCount + 1 }
      else
        { st with
          averagePipelineRunTime := st.averagePipelineRunTime + d
          pipelinesBarCount := st.pipelinesBarCount + 1
          errlog := st.errlog ++ [8]
          failedPipelineRuns := st.failedPipelineRuns + 1 }

/-- Initial Stage-3 state; also the final Stage-3 state when
`waitPipelines` is disabled and the goroutine is never spawned. -/
def stage3Init : Stage3State := ⟨0, 0, 0, []⟩

/-- The whole Stage-3 goroutine: consume the Stage-2 queue contents in
order. -/
def stage3Run (orc : ThreadOracle) (queue : List Nat) : Stage3State :=
  queue.foldl (stage3User orc) stage3Init

/-- Final state of one worker thread (`userJourneyThread`) after its
wait group joins: Stage 3 runs only when `waitPipelines` is set. -/
structure ThreadResult where
  s1 : Stage1State
  s2 : Stage2State
  s3 : Stage3State

/-- One whole worker thread: Stage 1 feeds `chUsers`, Stage 2 consumes
it and feeds `chPipelines`, Stage 3 consumes that queue only when
`waitPipelines` is enabled. -/
def threadRun (cfg : Config) (threadIndex : Nat) (orc : ThreadOracle) : ThreadResult :=
  let s1 := stage1Run cfg threadIndex orc
  let s2 := stage2Run orc s1.chUsers
  let s3 := if cfg.waitPipelines then stage3Run orc s2.chPipelines else stage3Init
  ⟨s1, s2, s3⟩

/-- All error codes recorded by one worker thread across its stages. -/
def threadErrlog (r : ThreadResult) : List Nat :=
  r.s1.errlog ++ r.s2.errlog ++ r.s3.errlog

/-- The capacity `userJourneyThread` gives the `chPipelines` channel
(`make(chan int, numberOfUsers)`). -/
def chPipelinesCapacity (cfg : Config) : Nat := cfg.numberOfUsers

/-- The capacity `userJourneyThread` gives the `chUsers` channel
(`make(chan int, numberOfUsers)`). -/
def chUsersCapacity (cfg : Config) : Nat := cfg.numberOfUsers

/-- `int(d.Seconds())` for a non-negative duration of `d` nanoseconds:
truncation to whole seconds. -/
def durationSecondsInt (d : Nat) : Nat := d / 1000000000

/-- `averageDurationFromArray`: sum of the per-thread totals truncated
to whole seconds, divided by the attempted-user count. -/
def averageDurationFromArray (durations : List Nat) (count : Nat) : ℚ :=
  (((durations.map durationSecondsInt).sum : Nat) : ℚ) / (count : ℚ)

/-- `sumFromArray`: sum of the per-thread failure counters. -/
def sumFromArray (array : List Nat) : Nat := array.sum

/-- The aggregate snapshot `setup` computes after all threads join. -/
structure RunAggregate where
  overallCount : Nat
  averageTimeToSpinUpUsers : ℚ
  averageTimeToCreateResources : ℚ
  averageTimeToRunPipelines : ℚ
  userCreationFailureCount : Nat
  resourceCreationFailureCount : Nat
  pipelineRunFailureCount : Nat

/-- The aggregation `setup` performs over the per-thread arrays after
`threadsWG.Wait()` (`overallCount = numberOfUsers * threadCount`). -/
def aggregate (cfg : Config) (results : List ThreadResult) : RunAggregate :=
  { overallCount := cfg.numberOfUsers * cfg.threadCount
    averageTimeToSpinUpUsers :=
      averageDurationFromArray (results.map (fun r => r.s1.averageUserCreationTime))
        (cfg.numberOfUsers * cfg.threadCount)
    averageTimeToCreateResources :=
      averageDurationFromArray (results.map (fun r => r.s2.averageResourceCreationTime))
        (cfg.numberOfUsers * cfg.threadCount)
    averageTimeToRunPipelines :=
      averageDurationFromArray (results.map (fun r => r.s3.averagePipelineRunTime))
        (cfg.numberOfUsers * cfg.threadCount)
    userCreationFailureCount := sumFromArray (results.map (fun r => r.s1.failedUserCreations))
    resourceCreationFailureCount :=
      sumFromArray (results.map (fun r => r.s2.failedResourceCreations))
    pipelineRunFailureCount := sumFromArray (results.map (fun r => r.s3.failedPipelineRuns)) }

/-- Spawn every worker thread and aggregate after the join. -/
def runLoadTest (cfg : Config) (orcs : Nat → ThreadOracle) : RunAggregate :=
  aggregate cfg ((List.range cfg.threadCount).map (fun th => threadRun cfg th (orcs th)))

/-- Result of `setup`: either the fatal batch-divisibility validation
(`numberOfUsers % userBatches != 0`, reached before any worker is
spawned) or a completed run with the list of spawned thread indices
and the aggregate snapshot. -/
inductive SetupOutcome where
  | fatalBatchMismatch
  | completed (spawnedThreads : List Nat) (agg : RunAggregate)

/-- The `setup` command: validate the batch size, then spawn exactly
`threadCount` worker pipelines and aggregate their results. -/
def setupRun (cfg : Config) (orcs : Nat → ThreadOracle) : SetupOutcome :=
  if cfg.numberOfUsers % cfg.userBatches != 0 then
    .fatalBatchMismatch
  else
    .completed (List.range cfg.threadCount) (runLoadTest cfg orcs)

/-- The error code of the first failing Stage-2 step for one ordinal,
following the step order of the source (secret 3, application 4,
gitops repo 5, component 6, component name 7); `none` when every step
succeeds. -/
def stage2FailCode (orc : ThreadOracle) (u : Nat) : Option Nat :=
  if orc.secretOk u then
    if orc.appOk u then
      if orc.gitopsOk u then
        if orc.componentOk u then
          if orc.componentNameOk u then none else some 7
        else some 6
      else some 5
    else some 4
  else some 3

/-- Whether every Stage-2 step succeeds for one ordinal. -/
def stage2AllOk (orc : ThreadOracle) (u : Nat) : Bool :=
  (stage2FailCode orc u).isNone

/-- One entry of the process-wide `errorOccurredMap`. -/
structure ErrorOccurrence where
  errorNumber : Int
  latestMessage : String
  count : Nat
deriving DecidableEq

/-- Go map lookup on the association-list model of
`errorOccurredMap`. -/
def mapLookup : List (Int × ErrorOccurrence) → Int → Option ErrorOccurrence
  | [], _ => none
  | (k, v) :: rest, c => if k = c then some v else mapLookup rest c

/-- Go map assignment on the association-list model of
`errorOccurredMap`. -/
def mapInsert : List (Int × ErrorOccurrence) → Int → ErrorOccurrence → List (Int × ErrorOccurrence)
  | [], c, v => [(c, v)]
  | (k, w) :: rest, c, v =>
      if k = c then (k, v) :: rest else (k, w) :: mapInsert rest c v

/-- The map update performed by `logError` inside its critical
section: bump the count and replace the latest message when the code
is present, otherwise insert a fresh entry with count 1. -/
def logError (m : List (Int × ErrorOccurrence)) (errCode : Int) (message : String) :
    List (Int × ErrorOccurrence) :=
  match mapLookup m errCode with
  | some occ => mapInsert m errCode { occ with count := occ.count + 1, latestMessage := message }
  | none => mapInsert m errCode { errorNumber := errCode, latestMessage := message, count := 1 }

/-- The `errorOccurredMap` contents after a finite sequence of
`logError` calls, starting from the empty map `setup` allocates. -/
def logErrorRun (calls : List (Int × String)) : List (Int × ErrorOccurrence) :=
  calls.foldl (fun m call => logError m call.1 call.2) []

/-- The messages of the calls made with a given error code, in call
order. -/
def callsFor (calls : List (Int × String)) (c : Int) : List String :=
  (calls.filter (fun p => p.1 == c)).map Prod.snd

/-- Base-10 value of a digit-character list (most significant
first). -/
def charListVal (l : List Char) : Nat :=
  l.foldl (fun acc c => acc * 10 + charVal c) 0

/-- Collaborator outcomes in which every call succeeds, with the three
per-user duration measurements supplied as functions. -/
def allOkDurOracle (ud rd bd : Nat → Nat) : ThreadOracle :=
  ⟨fun _ => true, fun _ _ => true, ud, fun _ => true, fun _ => true,
   fun _ => true, fun _ => true, fun _ => true, rd, fun u => .done (bd u) true⟩

/-- Collaborator outcomes in which every call succeeds and every
measured duration is one nanosecond. -/
def allOkOrc : ThreadOracle :=
  allOkDurOracle (fun _ => 1) (fun _ => 1) (fun _ => 1)

/-- A one-thread configuration with four users per thread and batch
size two. -/
def cfgBug : Config := ⟨"testuser".data, 4, 2, 1, false⟩

/-- A one-thread configuration with two users per thread and batch
size two. -/
def cfgTwo : Config := ⟨"testuser".data, 2, 2, 1, false⟩

/-- The configuration of the all-success aggregate claim: two
threads, four users per thread, batch size two, pipeline waiting
enabled. -/
def cfgFour : Config := ⟨"testuser".data, 4, 2, 2, true⟩

/-- Outcomes where the readiness wait fails exactly at batch-loop
index 2 and everything else succeeds. -/
def orcNsFail : ThreadOracle := { allOkOrc with nsReady := fun _ i => i != 2 }

/-- Outcomes where user creation fails exactly for ordinal 1 and
everything else succeeds. -/
def orcCreateFail : ThreadOracle := { allOkOrc with createOk := fun u => u != 1 }

/-- A readiness outcome sequence that fails at call index 2. -/
def readyUpTo1 : Nat → Bool := fun i => i != 2

/-- A per-user duration measurement of exactly one second
(10^9 nanoseconds) for every user. -/
def oneSecDur : Nat → Nat := fun _ => 1000000000

/-! Helper lemmas about the Stage-1 cohort evaluation. -/

lemma stage1BatchLoopAux_mem (ready : Nat → Bool) :
    ∀ (fuel start : Nat) (acc : List Nat) (i : Nat),
      i ∈ (stage1BatchLoopAux ready fuel start acc).1 ↔
        i ∈ acc ∨ (start ≤ i ∧ i < start + fuel ∧ ∀ j, start ≤ j → j ≤ i → ready j = true)
  | 0, start, acc, i => by
      simp only [stage1BatchLoopAux]
      constructor
      · intro h; exact Or.inl h
      · rintro (h | ⟨h1, h2, _⟩)
        · exact h
        · omega
  | fuel + 1, start, acc, i => by
      simp only [stage1BatchLoopAux]
      by_cases hr : ready start
      · rw [if_pos hr]
        rw [stage1BatchLoopAux_mem ready fuel (start + 1) (acc ++ [start]) i]
        simp only [List.mem_append, List.mem_singleton]
        constructor
        · rintro ((h | rfl) | ⟨h1, h2, h3⟩)
          · exact Or.inl h
          · refine Or.inr ⟨le_refl _, by omega, ?_⟩
            intro j hj1 hj2
            have : j = i := le_antisymm hj2 hj1
            subst this; exact hr
          · refine Or.inr ⟨by omega, by omega, ?_⟩
            intro j hj1 hj2
            rcases Nat.eq_or_lt_of_le hj1 with rfl | hlt
            · exact hr
            · exact h3 j hlt hj2
        · rintro (h | ⟨h1, h2, h3⟩)
          · exact Or.inl (Or.inl h)
          · rcases Nat.eq_or_lt_of_le h1 with rfl | hlt
            · exact Or.inl (Or.inr rfl)
            · exact Or.inr ⟨hlt, by omega, fun j hj1 hj2 => h3 j (by omega) hj2⟩
      · rw [if_neg hr]
        simp only []
        constructor
        · intro h; exact Or.inl h
        · rintro (h | ⟨h1, h2, h3⟩)
          · exact h
          · exact absurd (h3 start (le_refl _) h1) hr

/-- C1: in the Stage-1 cohort evaluation, the namespace passed to the
readiness wait is derived from the batch-final ordinal `userIndex`,
not from the member ordinal `i`: for the cohort ending at ordinal 2 of
thread 0, the namespace checked while forwarding member 1 is the
tenant namespace of ordinal 2, which differs from member 1's own
tenant namespace. -/
theorem c1_namespace_from_batch_final :
    stage1WaitNamespace cfgBug 0 2 1 = fmtTenantNs "testuser".data 2 ∧
    stage1WaitNamespace cfgBug 0 2 1 ≠ fmtTenantNs "testuser".data 1 := by
  constructor
  · rfl
  · decide

/-- C2 counterexample: with two users, batch size two, all creations
succeeding, and the readiness wait succeeding at batch-loop index 1
but failing at index 2, the cohort evaluation fails (error 2 is
recorded) yet ordinal 1 has already been forwarded into the
Stage-1→Stage-2 queue — a member of a failed cohort evaluation reaches
Stage 2. -/
theorem c2_partial_cohort_forwarded :
    (threadRun cfgTwo 0 orcNsFail).s1.errlog = [2] ∧
    (threadRun cfgTwo 0 orcNsFail).s1.failedUserCreations = 1 ∧
    (threadRun cfgTwo 0 orcNsFail).s1.chUsers = [1] := by
  decide

/-- C2 (amended): an ordinal is forwarded by a cohort evaluation of
`cnt` members ending at `hi` exactly when it lies in the cohort and
every readiness check from the cohort start up to and including its
own passed; members after the first failed check are not forwarded,
but members before it have already been sent downstream. -/
theorem c2_cohort_forwarding (ready : Nat → Bool) (cnt hi i : Nat) (hcnt : cnt ≤ hi + 1) :
    i ∈ (stage1BatchLoop ready cnt hi).1 ↔
      (hi + 1 - cnt ≤ i ∧ i ≤ hi ∧ ∀ j, hi + 1 - cnt ≤ j → j ≤ i → ready j = true) := by
  unfold stage1BatchLoop
  rw [stage1BatchLoopAux_mem ready cnt (hi + 1 - cnt) [] i]
  simp only [List.not_mem_nil, false_or]
  constructor
  · rintro ⟨h1, h2, h3⟩
    exact ⟨h1, by omega, h3⟩
  · rintro ⟨h1, h2, h3⟩
    exact ⟨h1, by omega, h3⟩

/-- C2 witness: the amended characterization evaluated for member 1 of
the two-member cohort ending at ordinal 2, under the readiness
sequence that fails at index 2. -/
theorem c2_cohort_forwarding_w :
    2 ≤ 2 + 1 ∧
    (1 ∈ (stage1BatchLoop readyUpTo1 2 2).1 ↔
      (2 + 1 - 2 ≤ 1 ∧ 1 ≤ 2 ∧ ∀ j, 2 + 1 - 2 ≤ j → j ≤ 1 → readyUpTo1 j = true)) :=
  ⟨by omega, c2_cohort_forwarding readyUpTo1 2 2 1 (by omega)⟩

/-- C3: Stage-1 conservation fails: with one thread, two users and
batch size two, a creation failure for ordinal 1 followed by a
successful creation for ordinal 2 yields one counted failure while the
cohort evaluation still forwards both ordinals (including the
never-created ordinal 1), so failures plus forwarded ordinals is 3,
not threadCount × usersPerThread = 2. -/
theorem c3_conservation_violated :
    (threadRun cfgTwo 0 orcCreateFail).s1.failedUserCreations = 1 ∧
    (threadRun cfgTwo 0 orcCreateFail).s1.chUsers = [1, 2] ∧
    (threadRun cfgTwo 0 orcCreateFail).s1.failedUserCreations +
        (threadRun cfgTwo 0 orcCreateFail).s1.chUsers.length ≠
      cfgTwo.threadCount * cfgTwo.numberOfUsers := by
  decide

/-! Helper lemmas characterizing Stage 2. -/

lemma stage2User_char (orc : ThreadOracle) (st : Stage2State) (u : Nat) :
    (stage2User orc st u).chPipelines =
      st.chPipelines ++ (if stage2AllOk orc u then [u] else []) ∧
    (stage2User orc st u).failedResourceCreations =
      st.failedResourceCreations + (if stage2AllOk orc u then 0 else 1) ∧
    (stage2User orc st u).errlog = st.errlog ++ (stage2FailCode orc u).toList := by
  by_cases h1 : orc.secretOk u <;> by_cases h2 : orc.appOk u <;>
    by_cases h3 : orc.gitopsOk u <;> by_cases h4 : orc.componentOk u <;>
      by_cases h5 : orc.componentNameOk u <;>
        simp [stage2User, stage2AllOk, stage2FailCode, h1, h2, h3, h4, h5]

lemma stage2Foldl_char (orc : ThreadOracle) :
    ∀ (q : List Nat) (st : Stage2State),
      (q.foldl (stage2User orc) st).chPipelines =
        st.chPipelines ++ q.filter (fun u => stage2AllOk orc u) ∧
      (q.foldl (stage2User orc) st).failedResourceCreations =
        st.failedResourceCreations + (q.filter (fun u => !stage2AllOk orc u)).length ∧
      (q.foldl (stage2User orc) st).errlog = st.errlog ++ q.filterMap (stage2FailCode orc)
  | [], st => by simp
  | u :: q, st => by
      obtain ⟨s1, s2, s3⟩ := stage2User_char orc st u
      obtain ⟨i1, i2, i3⟩ := stage2Foldl_char orc q (stage2User orc st u)
      refine ⟨?_, ?_, ?_⟩
      · rw [List.foldl_cons, i1, s1, List.filter_cons]
        by_cases h : stage2AllOk orc u <;> simp [h]
      · rw [List.foldl_cons, i2, s2, List.filter_cons]
        by_cases h : stage2AllOk orc u <;> simp [h] <;> omega
      · rw [List.foldl_cons, i3, s3, List.filterMap_cons]
        cases hc : stage2FailCode orc u <;> simp [hc]

lemma stage2FailCode_mem (orc : ThreadOracle) (u c : Nat)
    (h : stage2FailCode orc u = some c) :
    c = 3 ∨ c = 4 ∨ c = 5 ∨ c = 6 ∨ c = 7 := by
  unfold stage2FailCode at h
  repeat' split at h
  all_goals simp_all

/-- C6: Stage 2 processes every queued ordinal; an ordinal whose first
failing step has code 3..7 contributes exactly that code to the error
log and exactly one unit to the thread's resource-failure counter and
is not forwarded into the Stage-2→Stage-3 queue, while ordinals with
all steps succeeding are forwarded in order. -/
theorem c6_stage2_failure_isolation (orc : ThreadOracle) (q : List Nat) :
    (stage2Run orc q).chPipelines = q.filter (fun u => stage2AllOk orc u) ∧
    (stage2Run orc q).failedResourceCreations =
      (q.filter (fun u => !stage2AllOk orc u)).length ∧
    (stage2Run orc q).errlog = q.filterMap (stage2FailCode orc) := by
  have h := stage2Foldl_char orc q stage2Init
  simpa [stage2Run, stage2Init] using h

/-- C5: `setup` hits the fatal batch validation (before any worker is
spawned) exactly when `numberOfUsers` is not divisible by
`userBatches`; on every divisible configuration it spawns exactly
`threadCount` worker pipelines. -/
theorem c5_batch_validation (cfg : Config) (orcs : Nat → ThreadOracle)
    (hB : 0 < cfg.userBatches) :
    (setupRun cfg orcs = SetupOutcome.fatalBatchMismatch ↔
      cfg.numberOfUsers % cfg.userBatches ≠ 0) ∧
    (cfg.numberOfUsers % cfg.userBatches = 0 →
      setupRun cfg orcs =
        SetupOutcome.completed (List.range cfg.threadCount) (runLoadTest cfg orcs) ∧
      (List.range cfg.threadCount).length = cfg.threadCount) := by
  unfold setupRun
  by_cases h : cfg.numberOfUsers % cfg.userBatches = 0
  · simp [h]
  · simp [h]

/-- C5 witness: the validation outcome evaluated on the two-thread,
four-users, batch-two configuration. -/
theorem c5_batch_validation_w :
    0 < cfgFour.userBatches ∧
    ((setupRun cfgFour (fun _ => allOkOrc) = SetupOutcome.fatalBatchMismatch ↔
        cfgFour.numberOfUsers % cfgFour.userBatches ≠ 0) ∧
      (cfgFour.numberOfUsers % cfgFour.userBatches = 0 →
        setupRun cfgFour (fun _ => allOkOrc) =
          SetupOutcome.completed (List.range cfgFour.threadCount)
            (runLoadTest cfgFour (fun _ => allOkOrc)) ∧
        (List.range cfgFour.threadCount).length = cfgFour.threadCount)) :=
  ⟨by decide, c5_batch_validation cfgFour (fun _ => allOkOrc) (by decide)⟩

/-! Helper lemmas bounding the error codes each stage can record. -/

lemma stage1User_errlog_sub (cfg : Config) (th : Nat) (orc : ThreadOracle)
    (st : Stage1State) (u c : Nat) (hc : c ∈ (stage1User cfg th orc st u).errlog) :
    c ∈ st.errlog ∨ c = 1 ∨ c = 2 := by
  unfold stage1User at hc
  split at hc
  · split at hc
    · split at hc
      · exact Or.inl hc
      · simp only [List.mem_append, List.mem_singleton] at hc
        rcases hc with h | h
        · exact Or.inl h
        · exact Or.inr (Or.inr h)
    · exact Or.inl hc
  · simp only [List.mem_append, List.mem_singleton] at hc
    rcases hc with h | h
    · exact Or.inl h
    · exact Or.inr (Or.inl h)

lemma stage1Foldl_errlog_sub (cfg : Config) (th : Nat) (orc : ThreadOracle) :
    ∀ (l : List Nat) (st : Stage1State) (c : Nat),
      c ∈ (l.foldl (fun s k => stage1User cfg th orc s (k + 1)) st).errlog →
      c ∈ st.errlog ∨ c = 1 ∨ c = 2
  | [], _, _, h => Or.inl h
  | k :: l, st, c, h => by
      have ih := stage1Foldl_errlog_sub cfg th orc l (stage1User cfg th orc st (k + 1)) c
        (by simpa using h)
      rcases ih with h' | h'
      · exact stage1User_errlog_sub cfg th orc st (k + 1) c h'
      · exact Or.inr h'

/-- C7: when `waitPipelines` is disabled the Stage-3 goroutine never
runs: the pipeline-run duration accumulator and pipeline-failure
counter of every thread stay zero and no error of code 8 or 9 is ever
recorded, whatever the Stage-1 and Stage-2 outcomes. -/
theorem c7_stage3_never_runs (cfg : Config) (th : Nat) (orc : ThreadOracle)
    (h : cfg.waitPipelines = false) :
    (threadRun cfg th orc).s3.averagePipelineRunTime = 0 ∧
    (threadRun cfg th orc).s3.failedPipelineRuns = 0 ∧
    8 ∉ threadErrlog (threadRun cfg th orc) ∧
    9 ∉ threadErrlog (threadRun cfg th orc) := by
  have hs3 : (threadRun cfg th orc).s3 = stage3Init := by
    simp [threadRun, h]
  have h1 : ∀ c, c ∈ (stage1Run cfg th orc).errlog → c = 1 ∨ c = 2 := by
    intro c hc
    rcases stage1Foldl_errlog_sub cfg th orc (List.range cfg.numberOfUsers) stage1Init c hc
      with h' | h'
    · simp [stage1Init] at h'
    · exact h'
  have h2 : ∀ c, c ∈ (stage2Run orc (stage1Run cfg th orc).chUsers).errlog →
      c = 3 ∨ c = 4 ∨ c = 5 ∨ c = 6 ∨ c = 7 := by
    intro c hc
    have he := (stage2Foldl_char orc (stage1Run cfg th orc).chUsers stage2Init).2.2
    rw [show (stage2Run orc (stage1Run cfg th orc).chUsers).errlog =
        ((stage1Run cfg th orc).chUsers.foldl (stage2User orc) stage2Init).errlog from rfl,
      he] at hc
    simp only [stage2Init, List.nil_append] at hc
    obtain ⟨u, _, hsome⟩ := List.mem_filterMap.mp hc
    exact stage2FailCode_mem orc u c hsome
  have hmem : ∀ c, c ∈ threadErrlog (threadRun cfg th orc) →
      c = 1 ∨ c = 2 ∨ c = 3 ∨ c = 4 ∨ c = 5 ∨ c = 6 ∨ c = 7 := by
    intro c hc
    unfold threadErrlog at hc
    rw [hs3] at hc
    simp only [stage3Init, List.append_nil, List.mem_append] at hc
    rcases hc with hm | hm
    · rcases h1 c hm with h' | h' <;> omega
    · rcases h2 c hm with h' | h' | h' | h' | h' <;> omega
  refine ⟨by rw [hs3]; rfl, by rw [hs3]; rfl, ?_, ?_⟩
  · intro hc
    rcases hmem 8 hc with h' | h' | h' | h' | h' | h' | h' <;> omega
  · intro hc
    rcases hmem 9 hc with h' | h' | h' | h' | h' | h' | h' <;> omega

/-- C7 witness: Stage-3 metrics and error codes evaluated on a
concrete run with `waitPipelines` disabled. -/
theorem c7_stage3_never_runs_w :
    cfgTwo.waitPipelines = false ∧
    ((threadRun cfgTwo 0 allOkOrc).s3.averagePipelineRunTime = 0 ∧
      (threadRun cfgTwo 0 allOkOrc).s3.failedPipelineRuns = 0 ∧
      8 ∉ threadErrlog (threadRun cfgTwo 0 allOkOrc) ∧
      9 ∉ threadErrlog (threadRun cfgTwo 0 allOkOrc)) :=
  ⟨rfl, c7_stage3_never_runs cfgTwo 0 allOkOrc rfl⟩

/-! Helper lemmas bounding how many ordinals Stage 1 and Stage 2 send. -/

lemma stage1BatchLoopAux_len (ready : Nat → Bool) :
    ∀ (fuel i : Nat) (acc : List Nat),
      (stage1BatchLoopAux ready fuel i acc).1.length ≤ acc.length + fuel
  | 0, _, acc => by simp [stage1BatchLoopAux]
  | fuel + 1, i, acc => by
      simp only [stage1BatchLoopAux]
      split
      · have h := stage1BatchLoopAux_len ready fuel (i + 1) (acc ++ [i])
        simp only [List.length_append, List.length_singleton] at h
        omega
      · simp

lemma stage1User_chUsers_le (cfg : Config) (th : Nat) (orc : ThreadOracle)
    (st : Stage1State) (u : Nat) :
    (stage1User cfg th orc st u).chUsers.length ≤ st.chUsers.length + cfg.userBatches := by
  unfold stage1User
  split
  · split
    · rcases hbl : stage1BatchLoop
          (fun i => orc.nsReady (stage1WaitNamespace cfg th u i) i)
          cfg.userBatches u with ⟨pushed, b⟩
      have hlen : pushed.length ≤ cfg.userBatches := by
        have h := stage1BatchLoopAux_len
          (fun i => orc.nsReady (stage1WaitNamespace cfg th u i) i)
          cfg.userBatches (u + 1 - cfg.userBatches) []
        unfold stage1BatchLoop at hbl
        rw [hbl] at h
        simpa using h
      cases b
      · show (st.chUsers ++ pushed).length ≤ st.chUsers.length + cfg.userBatches
        simp only [List.length_append]
        omega
      · show (st.chUsers ++ pushed).length ≤ st.chUsers.length + cfg.userBatches
        simp only [List.length_append]
        omega
    · simp
  · simp

lemma stage1User_chUsers_eq (cfg : Config) (th : Nat) (orc : ThreadOracle)
    (st : Stage1State) (u : Nat) (h : (u % cfg.userBatches == 0) = false) :
    (stage1User cfg th orc st u).chUsers = st.chUsers := by
  unfold stage1User
  split
  · simp [h]
  · rfl

lemma stage1Foldl_chUsers_len (cfg : Config) (th : Nat) (orc : ThreadOracle) :
    ∀ n : Nat,
      ((List.range n).foldl (fun s k => stage1User cfg th orc s (k + 1))
          stage1Init).chUsers.length
        ≤ cfg.userBatches * (n / cfg.userBatches)
  | 0 => by simp [stage1Init]
  | n + 1 => by
      rw [List.range_succ, List.foldl_append, List.foldl_cons, List.foldl_nil]
      have ih := stage1Foldl_chUsers_len cfg th orc n
      set st := (List.range n).foldl (fun s k => stage1User cfg th orc s (k + 1)) stage1Init
        with hst
      by_cases hb : ((n + 1) % cfg.userBatches == 0) = true
  /- the ordinal completes a batch: at most `userBatches` new sends -/
      · have hmod : (n + 1) % cfg.userBatches = 0 := by simpa using hb
        have hB0 : 0 < cfg.userBatches := by
          rcases Nat.eq_zero_or_pos cfg.userBatches with h0 | h0
          · rw [h0] at hmod; omega
          · exact h0
        have hdiv : n / cfg.userBatches + 1 ≤ (n + 1) / cfg.userBatches := by
          obtain ⟨m, hm⟩ := Nat.dvd_of_mod_eq_zero hmod
          have hm1 : 1 ≤ m := by
            rcases Nat.eq_zero_or_pos m with h0 | h0
            · rw [h0, Nat.mul_zero] at hm; omega
            · exact h0
          have hq : (n + 1) / cfg.userBatches = m := by
            rw [hm, Nat.mul_div_cancel_left _ hB0]
          have hlt : n / cfg.userBatches < m := by
            apply Nat.div_lt_of_lt_mul
            omega
          rw [hq]
          omega
        have hstep := stage1User_chUsers_le cfg th orc st (n + 1)
        have hmono : cfg.userBatches * (n / cfg.userBatches + 1)
            ≤ cfg.userBatches * ((n + 1) / cfg.userBatches) :=
          Nat.mul_le_mul_left _ hdiv
        have hexp : cfg.userBatches * (n / cfg.userBatches + 1)
            = cfg.userBatches * (n / cfg.userBatches) + cfg.userBatches := by ring
        omega
  /- no batch completes: the queue is untouched -/
      · have hb' : ((n + 1) % cfg.userBatches == 0) = false := by
          cases hx : ((n + 1) % cfg.userBatches == 0)
          · rfl
          · exact absurd hx hb
        rw [stage1User_chUsers_eq cfg th orc st (n + 1) hb']
        have hdiv : n / cfg.userBatches ≤ (n + 1) / cfg.userBatches :=
          Nat.div_le_div_right (by omega)
        calc st.chUsers.length
            ≤ cfg.userBatches * (n / cfg.userBatches) := ih
          _ ≤ cfg.userBatches * ((n + 1) / cfg.userBatches) :=
              Nat.mul_le_mul_left _ hdiv

/-- C10: each stage sends at most `numberOfUsers` ordinals into its
output channel, which is exactly the capacity the channels are created
with — so every send completes without blocking even when no Stage-3
consumer exists. -/
theorem c10_sends_within_capacity (cfg : Config) (th : Nat) (orc : ThreadOracle) :
    (threadRun cfg th orc).s1.chUsers.length ≤ chUsersCapacity cfg ∧
    (threadRun cfg th orc).s2.chPipelines.length ≤ chPipelinesCapacity cfg := by
  have h1 : (stage1Run cfg th orc).chUsers.length ≤ cfg.numberOfUsers := by
    have hinv := stage1Foldl_chUsers_len cfg th orc cfg.numberOfUsers
    have hmul : cfg.userBatches * (cfg.numberOfUsers / cfg.userBatches) ≤ cfg.numberOfUsers := by
      rw [Nat.mul_comm]
      exact Nat.div_mul_le_self _ _
    exact le_trans hinv hmul
  refine ⟨h1, ?_⟩
  have hc := (stage2Foldl_char orc (stage1Run cfg th orc).chUsers stage2Init).1
  rw [show (threadRun cfg th orc).s2.chPipelines =
      ((stage1Run cfg th orc).chUsers.foldl (stage2User orc) stage2Init).chPipelines from rfl,
    hc]
  simp only [stage2Init, List.nil_append, chPipelinesCapacity]
  exact le_trans (List.length_filter_le _ _) h1

/-! Helper lemmas about the `errorOccurredMap` model. -/

lemma mapLookup_mapInsert_self :
    ∀ (m : List (Int × ErrorOccurrence)) (c : Int) (v : ErrorOccurrence),
      mapLookup (mapInsert m c v) c = some v
  | [], c, v => by simp [mapInsert, mapLookup]
  | (k, w) :: rest, c, v => by
      by_cases h : k = c
      · simp [mapInsert, mapLookup, h]
      · simp [mapInsert, mapLookup, h, mapLookup_mapInsert_self rest c v]

lemma mapLookup_mapInsert_ne :
    ∀ (m : List (Int × ErrorOccurrence)) (c c' : Int) (v : ErrorOccurrence), c ≠ c' →
      mapLookup (mapInsert m c' v) c = mapLookup m c
  | [], c, c', v, h => by simp [mapInsert, mapLookup, Ne.symm h]
  | (k, w) :: rest, c, c', v, h => by
      by_cases hk : k = c'
      · subst hk
        simp [mapInsert, mapLookup, Ne.symm h]
      · by_cases hc : k = c
        · simp [mapInsert, mapLookup, hk, hc, h]
        · simp [mapInsert, mapLookup, hk, hc, mapLookup_mapInsert_ne rest c c' v h]

lemma mapLookup_logError_update (m : List (Int × ErrorOccurrence)) (c : Int)
    (msg : String) (occ : ErrorOccurrence) (h : mapLookup m c = some occ) :
    mapLookup (logError m c msg) c =
      some { occ with count := occ.count + 1, latestMessage := msg } := by
  unfold logError
  rw [h]
  exact mapLookup_mapInsert_self m c _

lemma mapLookup_logError_fresh (m : List (Int × ErrorOccurrence)) (c : Int)
    (msg : String) (h : mapLookup m c = none) :
    mapLookup (logError m c msg) c = some ⟨c, msg, 1⟩ := by
  unfold logError
  rw [h]
  exact mapLookup_mapInsert_self m c _

lemma mapLookup_logError_ne (m : List (Int × ErrorOccurrence)) (c c' : Int)
    (msg : String) (h : c ≠ c') :
    mapLookup (logError m c' msg) c = mapLookup m c := by
  unfold logError
  cases hx : mapLookup m c' <;>
    simp [mapLookup_mapInsert_ne _ _ _ _ h]

/-- C8: after any finite sequence of `logError` calls the aggregate
map has, for every code that was recorded at least once, an entry
whose count is the number of calls with that code and whose latest
message is the message of the most recent such call; codes never
recorded have no entry. -/
theorem c8_error_accumulator (calls : List (Int × String)) (c : Int) :
    mapLookup (logErrorRun calls) c =
      ((callsFor calls c).getLast?).map
        (fun msg => ⟨c, msg, (callsFor calls c).length⟩) := by
  induction calls using List.reverseRecOn with
  | nil => simp [logErrorRun, callsFor, mapLookup]
  | append_singleton l x ih =>
      obtain ⟨c', msg⟩ := x
      have hrun : logErrorRun (l ++ [(c', msg)]) = logError (logErrorRun l) c' msg := by
        simp [logErrorRun, List.foldl_append]
      by_cases h : c = c'
      · subst h
        have hcalls : callsFor (l ++ [(c, msg)]) c = callsFor l c ++ [msg] := by
          simp [callsFor, List.filter_append]
        rcases List.eq_nil_or_concat (callsFor l c) with hL | ⟨l0, a, hL⟩
        · have hnone : mapLookup (logErrorRun l) c = none := by
            rw [ih, hL]
            rfl
          rw [hrun, mapLookup_logError_fresh _ _ _ hnone, hcalls, hL]
          simp
        · have hsome : mapLookup (logErrorRun l) c =
              some ⟨c, a, (callsFor l c).length⟩ := by
            rw [ih, hL]
            simp [List.getLast?_concat, hL]
          rw [hrun, mapLookup_logError_update _ _ _ _ hsome, hcalls]
          simp [List.getLast?_concat]
      · have hcalls : callsFor (l ++ [(c', msg)]) c = callsFor l c := by
          have hbeq : (c' == c) = false := by
            simp [Ne.symm h]
          simp [callsFor, List.filter_append, hbeq]
        rw [hrun, mapLookup_logError_ne _ _ _ _ h, ih, hcalls]

/-! Helper lemmas about decimal rendering and username derivation. -/

lemma charVal_digitChar : ∀ d : Nat, d < 10 → charVal (digitChar d) = d := by decide

lemma val_step (a k n : Nat) :
    (a * 10 ^ k + n / 10) * 10 + n % 10 = a * 10 ^ (k + 1) + n := by
  rw [pow_succ]
  have hdm := Nat.div_add_mod n 10
  calc (a * 10 ^ k + n / 10) * 10 + n % 10
      = a * (10 ^ k * 10) + (10 * (n / 10) + n % 10) := by ring
    _ = a * (10 ^ k * 10) + n := by rw [hdm]

lemma foldl_val_decCharsAux :
    ∀ (fuel n a : Nat), n ≤ fuel →
      (decCharsAux fuel n).foldl (fun acc c => acc * 10 + charVal c) a =
        a * 10 ^ (decCharsAux fuel n).length + n
  | 0, n, a, h => by
      have hn : n = 0 := by omega
      subst hn
      simp [decCharsAux]
  | fuel + 1, n, a, h => by
      by_cases h10 : n < 10
      · simp [decCharsAux, h10, charVal_digitChar n h10]
      · have hdivle : n / 10 ≤ fuel := by
          have := Nat.div_lt_self (by omega : 0 < n) (by omega : 1 < 10)
          omega
        have ih := foldl_val_decCharsAux fuel (n / 10) a hdivle
        simp only [decCharsAux, if_neg h10, List.foldl_append, List.foldl_cons,
          List.foldl_nil, List.length_append, List.length_singleton]
        rw [ih, charVal_digitChar (n % 10) (Nat.mod_lt _ (by omega))]
        exact val_step a _ n

lemma foldl_val_replicate_zero :
    ∀ (k : Nat) (l : List Char),
      (List.replicate k '0' ++ l).foldl (fun acc c => acc * 10 + charVal c) 0 =
        l.foldl (fun acc c => acc * 10 + charVal c) 0
  | 0, l => by simp
  | k + 1, l => by
      have h0 : charVal '0' = 0 := rfl
      rw [List.replicate_succ, List.cons_append, List.foldl_cons]
      have hstep : (0 : Nat) * 10 + charVal '0' = 0 := by rw [h0]
      rw [hstep]
      exact foldl_val_replicate_zero k l

lemma charListVal_pad4 (n : Nat) : charListVal (pad4Chars n) = n := by
  unfold charListVal pad4Chars
  rw [foldl_val_replicate_zero]
  have h := foldl_val_decCharsAux n n 0 (le_refl n)
  unfold decChars
  simpa using h

lemma pad4Chars_inj (m n : Nat) (h : pad4Chars m = pad4Chars n) : m = n := by
  have hv := charListVal_pad4 m
  rw [h, charListVal_pad4 n] at hv
  omega

lemma fmtUserChars_inj (pre : List Char) (m n : Nat)
    (h : fmtUserChars pre m = fmtUserChars pre n) : m = n := by
  unfold fmtUserChars at h
  have h2 := List.append_cancel_left h
  injection h2 with _ h3
  exact pad4Chars_inj m n h3

lemma ordinal_decompose (N t u t' u' : Nat) (hN : 0 < N)
    (hu : 1 ≤ u) (hub : u ≤ N) (hu' : 1 ≤ u') (hub' : u' ≤ N)
    (h : t * N + u = t' * N + u') : t = t' ∧ u = u' := by
  have h1 : t * N + (u - 1) = t' * N + (u' - 1) := by omega
  have hq : (t * N + (u - 1)) / N = t := by
    rw [Nat.mul_comm t N, Nat.mul_add_div hN, Nat.div_eq_of_lt (by omega), Nat.add_zero]
  have hq' : (t' * N + (u' - 1)) / N = t' := by
    rw [Nat.mul_comm t' N, Nat.mul_add_div hN, Nat.div_eq_of_lt (by omega), Nat.add_zero]
  have ht : t = t' := by
    rw [← hq, ← hq', h1]
  refine ⟨ht, ?_⟩
  subst ht
  omega

/-- C9: username derivation is globally unique: two distinct
(threadIndex, userIndex) pairs with threadIndex below threadCount and
userIndex in 1..usersPerThread derive distinct synthetic usernames. -/
theorem c9_usernames_unique (cfg : Config) (t1 u1 t2 u2 : Nat)
    (ht1 : t1 < cfg.threadCount) (ht2 : t2 < cfg.threadCount)
    (hu1a : 1 ≤ u1) (hu1b : u1 ≤ cfg.numberOfUsers)
    (hu2a : 1 ≤ u2) (hu2b : u2 ≤ cfg.numberOfUsers)
    (hne : (t1, u1) ≠ (t2, u2)) :
    stage1Username cfg t1 u1 ≠ stage1Username cfg t2 u2 := by
  intro heq
  apply hne
  unfold stage1Username at heq
  have hn := fmtUserChars_inj cfg.usernamePrefixStr _ _ heq
  have hN : 0 < cfg.numberOfUsers := by omega
  obtain ⟨ht, hu⟩ :=
    ordinal_decompose cfg.numberOfUsers t1 u1 t2 u2 hN hu1a hu1b hu2a hu2b hn
  rw [ht, hu]

/-- C9 witness: the uniqueness theorem applied to the concrete pairs
(0, 1) and (1, 1) of the two-thread four-user configuration. -/
theorem c9_usernames_unique_w :
    0 < cfgFour.threadCount ∧ 1 < cfgFour.threadCount ∧
    1 ≤ cfgFour.numberOfUsers ∧ ((0, 1) : Nat × Nat) ≠ (1, 1) ∧
    stage1Username cfgFour 0 1 ≠ stage1Username cfgFour 1 1 :=
  ⟨by decide, by decide, by decide, by decide,
   c9_usernames_unique cfgFour 0 1 1 1 (by decide) (by decide) (by decide) (by decide)
     (by decide) (by decide) (by decide)⟩

/-! Helper lemmas for the all-success aggregate scenario. -/

lemma threadRun_allOkDur (th : Nat) (u r b : Nat → Nat) :
    threadRun cfgFour th (allOkDurOracle u r b) =
      ⟨⟨0, 0 + u 1 + u 2 + u 3 + u 4, 4, [], [1, 2, 3, 4]⟩,
       ⟨0, 0 + r 1 + r 2 + r 3 + r 4, 4, [], [1, 2, 3, 4]⟩,
       ⟨0, 0 + b 1 + b 2 + b 3 + b 4, 4, []⟩⟩ := rfl

lemma durationSecondsInt_pos (x : Nat) (hx : 1000000000 ≤ x) :
    1 ≤ durationSecondsInt x := by
  unfold durationSecondsInt
  rw [Nat.le_div_iff_mul_le (by norm_num)]
  omega

lemma averageDurationFromArray_pos (x0 x1 : Nat) (h : 1 ≤ durationSecondsInt x0) :
    0 < averageDurationFromArray [x0, x1] 8 := by
  unfold averageDurationFromArray
  apply div_pos
  · have hsum : 0 < (List.map durationSecondsInt [x0, x1]).sum := by
      simp only [List.map_cons, List.map_nil, List.sum_cons, List.sum_nil]
      omega
    exact_mod_cast hsum
  · norm_num

/-- C4 counterexample: with threadCount = 2, usersPerThread = 4,
batchSize = 2 and every stage attempt succeeding, per-user durations
of one nanosecond — positive — still produce an average spin-up time
of exactly 0, because each thread's accumulated duration is truncated
to whole seconds before averaging; the failure counts and the total of
8 users do match. -/
theorem c4_positive_durations_zero_average :
    (runLoadTest cfgFour (fun _ => allOkOrc)).userCreationFailureCount = 0 ∧
    (runLoadTest cfgFour (fun _ => allOkOrc)).resourceCreationFailureCount = 0 ∧
    (runLoadTest cfgFour (fun _ => allOkOrc)).pipelineRunFailureCount = 0 ∧
    (runLoadTest cfgFour (fun _ => allOkOrc)).overallCount = 8 ∧
    allOkOrc.userDur 1 = 1 ∧ 0 < allOkOrc.userDur 1 ∧
    (runLoadTest cfgFour (fun _ => allOkOrc)).averageTimeToSpinUpUsers = 0 := by
  refine ⟨by decide, by decide, by decide, by decide, rfl, by decide, ?_⟩
  have h : List.sum (List.map durationSecondsInt
      (List.map (fun res => res.s1.averageUserCreationTime)
        (List.map (fun th => threadRun cfgFour th ((fun _ => allOkOrc) th))
          (List.range cfgFour.threadCount)))) = 0 := by decide
  simp only [runLoadTest, aggregate, averageDurationFromArray]
  rw [h]
  norm_num

/-- C4 (amended): for threadCount = 2, usersPerThread = 4,
batchSize = 2 with every stage attempt succeeding, the aggregate
reports 0 failures for all three stages and 8 total users, and —
because per-thread totals are truncated to whole seconds before
averaging — the three average durations are strictly positive whenever
every per-user stage duration is at least one second. -/
theorem c4_all_success_aggregate (ud rd bd : Nat → Nat → Nat)
    (hud : ∀ th u, 1000000000 ≤ ud th u)
    (hrd : ∀ th u, 1000000000 ≤ rd th u)
    (hbd : ∀ th u, 1000000000 ≤ bd th u) :
    (runLoadTest cfgFour
        (fun th => allOkDurOracle (ud th) (rd th) (bd th))).userCreationFailureCount = 0 ∧
    (runLoadTest cfgFour
        (fun th => allOkDurOracle (ud th) (rd th) (bd th))).resourceCreationFailureCount = 0 ∧
    (runLoadTest cfgFour
        (fun th => allOkDurOracle (ud th) (rd th) (bd th))).pipelineRunFailureCount = 0 ∧
    (runLoadTest cfgFour
        (fun th => allOkDurOracle (ud th) (rd th) (bd th))).overallCount = 8 ∧
    0 < (runLoadTest cfgFour
        (fun th => allOkDurOracle (ud th) (rd th) (bd th))).averageTimeToSpinUpUsers ∧
    0 < (runLoadTest cfgFour
        (fun th => allOkDurOracle (ud th) (rd th) (bd th))).averageTimeToCreateResources ∧
    0 < (runLoadTest cfgFour
        (fun th => allOkDurOracle (ud th) (rd th) (bd th))).averageTimeToRunPipelines := by
  refine ⟨rfl, rfl, rfl, rfl, ?_, ?_, ?_⟩
  · have hspin : (runLoadTest cfgFour
        (fun th => allOkDurOracle (ud th) (rd th) (bd th))).averageTimeToSpinUpUsers =
        averageDurationFromArray
          [0 + ud 0 1 + ud 0 2 + ud 0 3 + ud 0 4,
           0 + ud 1 1 + ud 1 2 + ud 1 3 + ud 1 4] 8 := rfl
    rw [hspin]
    apply averageDurationFromArray_pos
    apply durationSecondsInt_pos
    have h1 := hud 0 1
    have h2 := hud 0 2
    have h3 := hud 0 3
    have h4 := hud 0 4
    omega
  · have hres : (runLoadTest cfgFour
        (fun th => allOkDurOracle (ud th) (rd th) (bd th))).averageTimeToCreateResources =
        averageDurationFromArray
          [0 + rd 0 1 + rd 0 2 + rd 0 3 + rd 0 4,
           0 + rd 1 1 + rd 1 2 + rd 1 3 + rd 1 4] 8 := rfl
    rw [hres]
    apply averageDurationFromArray_pos
    apply durationSecondsInt_pos
    have h1 := hrd 0 1
    have h2 := hrd 0 2
    have h3 := hrd 0 3
    have h4 := hrd 0 4
    omega
  · have hpipe : (runLoadTest cfgFour
        (fun th => allOkDurOracle (ud th) (rd th) (bd th))).averageTimeToRunPipelines =
        averageDurationFromArray
          [0 + bd 0 1 + bd 0 2 + bd 0 3 + bd 0 4,
           0 + bd 1 1 + bd 1 2 + bd 1 3 + bd 1 4] 8 := rfl
    rw [hpipe]
    apply averageDurationFromArray_pos
    apply durationSecondsInt_pos
    have h1 := hbd 0 1
    have h2 := hbd 0 2
    have h3 := hbd 0 3
    have h4 := hbd 0 4
    omega

/-- C4 witness: the amended aggregate theorem applied to the run in
which every per-user stage duration is exactly one second. -/
theorem c4_all_success_aggregate_w :
    1000000000 ≤ oneSecDur 1 ∧
    ((runLoadTest cfgFour
        (fun th => allOkDurOracle ((fun _ => oneSecDur) th) ((fun _ => oneSecDur) th)
          ((fun _ => oneSecDur) th))).userCreationFailureCount = 0 ∧
      (runLoadTest cfgFour
        (fun th => allOkDurOracle ((fun _ => oneSecDur) th) ((fun _ => oneSecDur) th)
          ((fun _ => oneSecDur) th))).resourceCreationFailureCount = 0 ∧
      (runLoadTest cfgFour
        (fun th => allOkDurOracle ((fun _ => oneSecDur) th) ((fun _ => oneSecDur) th)
          ((fun _ => oneSecDur) th))).pipelineRunFailureCount = 0 ∧
      (runLoadTest cfgFour
        (fun th => allOkDurOracle ((fun _ => oneSecDur) th) ((fun _ => oneSecDur) th)
          ((fun _ => oneSecDur) th))).overallCount = 8 ∧
      0 < (runLoadTest cfgFour
        (fun th => allOkDurOracle ((fun _ => oneSecDur) th) ((fun _ => oneSecDur) th)
          ((fun _ => oneSecDur) th))).averageTimeToSpinUpUsers ∧
      0 < (runLoadTest cfgFour
        (fun th => allOkDurOracle ((fun _ => oneSecDur) th) ((fun _ => oneSecDur) th)
          ((fun _ => oneSecDur) th))).averageTimeToCreateResources ∧
      0 < (runLoadTest cfgFour
        (fun th => allOkDurOracle ((fun _ => oneSecDur) th) ((fun _ => oneSecDur) th)
          ((fun _ => oneSecDur) th))).averageTimeToRunPipelines) :=
  ⟨le_refl _,
   c4_all_success_aggregate (fun _ => oneSecDur) (fun _ => oneSecDur) (fun _ => oneSecDur)
     (fun _ _ => le_refl _) (fun _ _ => le_refl _) (fun _ _ => le_refl _)⟩
